import Mathlib

/-!
Remote plugin middleware: registry, adapter and wire model.

A shallow embedding of `plugin/plugin.go`, `plugin/manager.go` and
`plugin/remotePlugin.go`.

Conventions of the embedding.

* A Go `map[string]T` is an association list with pairwise distinct keys
  (`AList`).  A `for k, v := range m` loop is a left fold over the entries; Go
  leaves the iteration order unspecified, and every statement below holds for
  every `AList`, hence for every order of the same entries.
* A `[]string` or `[]byte` is a `List`; a nil slice and an empty slice are both
  `[]` (the source only ever takes their length or ranges over them).
* A pointer the source tests against nil (`h.conn`, `req.Body`, `req.GetBody`,
  the `*Manager` receiver of `GetMiddlewares`) is an `Option`.  A pointer the
  source dereferences without a test (`pResp.Request`, `pResp.Response`,
  `r.URL`) is a plain value.
* Library code the repository calls but does not contain (URL printing and
  parsing, query and media-type parsing, the forwarder, the RPC stub, the
  plugin runtime, the dialer, `strings.ToLower`) is taken as a parameter.  The
  small string functions with a fixed documented behaviour (`strings.Fields`,
  `strings.SplitN`, `strconv.ParseInt`, `unicode.IsSpace`) are written out,
  on strings of valid UTF-8.
* The state `GetState()` reports for the connection is taken as fixed over one
  transaction.
-/

set_option linter.dupNamespace false

namespace Traefik

/-! ## Multimaps and the wire model (`proto`) -/

/-- Go `map[string][]string` (`http.Header`, `url.Values`). -/
abbrev Values := AList (fun _ : String => List String)

namespace proto

/-- Modelled from the spec: the generated package `proto` is not among the
sources.  Wire type `proto.ValueList`, the ordered list of values of one key
of a wire multimap; the source reads and writes its field `Value`. -/
structure ValueList where
  Value : List String
deriving DecidableEq, Repr

end proto

/-- Go `map[string]*proto.ValueList`. -/
abbrev WireValues := AList (fun _ : String => proto.ValueList)

namespace proto

/-- Modelled from the spec: the generated package `proto` is not among the
sources.  Wire type `proto.HttpRequest`, the request snapshot of the data
model, with the fields `createPluginRequest` fills and `syncRequest` reads.
`ProtoMajor` and `ProtoMinor` are `int32`, `ContentLength` is `int64`. -/
structure HttpRequest where
  Header : WireValues
  Close : Bool
  ContentLength : Int
  Host : String
  Method : String
  FormValues : WireValues
  PostFormValues : WireValues
  Proto : String
  ProtoMajor : Int
  ProtoMinor : Int
  RemoteAddr : String
  RequestUri : String
  Trailer : WireValues
  TransferEncoding : List String
  Url : String
  Body : List UInt8

/-- Modelled from the spec: the generated package `proto` is not among the
sources.  Wire type `proto.HttpResponse`, the response payload of the data
model: status code (`int32`), header multimap, body bytes. -/
structure HttpResponse where
  StatusCode : Int
  Header : WireValues
  Body : List UInt8

/-- Modelled from the spec: the generated package `proto` is not among the
sources.  Wire type `proto.Request`: the correlation id and the request
snapshot. -/
structure Request where
  RequestUuid : String
  Request : HttpRequest

/-- Modelled from the spec: the generated package `proto` is not among the
sources.  Wire type `proto.Response`: the echoed request, the response payload
and the three control flags. -/
structure Response where
  Request : HttpRequest
  Response : HttpResponse
  Redirect : Bool
  RenderContent : Bool
  StopChain : Bool

end proto

/-- Go map indexing `m[k]` on a `map[string][]string`: the nil slice when the
key is absent. -/
def goIndex (m : Values) (k : String) : List String :=
  (m.lookup k).getD []

/-- Source `mapOfStrings`: a fresh map, then `p[k] = v.Value` for every entry. -/
def mapOfStrings (values : WireValues) : Values :=
  values.foldl (fun p k v => p.insert k v.Value) ∅

/-- Source `valueList`: a fresh map, then `p[k] = &ValueList{Value: v}` for every
entry. -/
def valueList (values : Values) : WireValues :=
  values.foldl (fun p k v => p.insert k (proto.ValueList.mk v)) ∅

/-! ## The live HTTP objects (`net/http`, `net/url`) -/

/-- Go `url.URL`, as a record of its fields. -/
structure URL where
  Scheme : String
  Opaque : String
  User : Option (String × Option String)
  Host : String
  Path : String
  RawPath : String
  ForceQuery : Bool
  RawQuery : String
  Fragment : String
deriving DecidableEq, Repr

/-- An `io.Reader` as `ioutil.ReadAll` sees it: the bytes it still delivers,
and whether the stream then ends in a read error instead of end-of-file. -/
structure Reader where
  data : List UInt8
  fails : Bool
deriving DecidableEq, Repr

/-- Go `ioutil.ReadAll`: the bytes read (also when the read fails part-way) and
whether `err == nil`. -/
def ReadAll (rd : Reader) : List UInt8 × Bool :=
  (rd.data, !rd.fails)

/-- The reader once `ioutil.ReadAll` has run over it. -/
def Reader.drained (rd : Reader) : Reader :=
  { rd with data := [] }

namespace http

/-- One call on the `http.ResponseWriter` interface that produces output. -/
inductive SinkCall where
  | WriteHeader (code : Int)
  | Write (body : List UInt8)
deriving DecidableEq, Repr

/-- The response sink: the header map handed out by `rw.Header()` and the
output calls made on it so far, oldest first. -/
structure ResponseWriter where
  header : Values
  calls : List SinkCall

/-- Go `http.Request`, with the fields the adapter reads or writes.  `GetBody`
is nil (`none`) or a function; a function is given by what calling it returns,
a fresh reader or an error (`some none`). -/
structure Request where
  Method : String
  URL : URL
  Proto : String
  ProtoMajor : Int
  ProtoMinor : Int
  Header : Values
  Body : Option Reader
  GetBody : Option (Option Reader)
  ContentLength : Int
  TransferEncoding : List String
  Close : Bool
  Host : String
  Form : Values
  PostForm : Values
  Trailer : Values
  RemoteAddr : String
  RequestURI : String

/-- Go `http.StatusOK`. -/
def StatusOK : Int := 200

/-- Go `http.StatusServiceUnavailable`. -/
def StatusServiceUnavailable : Int := 503

/-- Go `http.StatusText`, on the codes named above (the adapter only asks for
503); the empty string stands for the rest of the table. -/
def StatusText (code : Int) : String :=
  if code = 200 then "OK"
  else if code = 503 then "Service Unavailable"
  else ""

/-- Go `Header.Get` for a key already in canonical form: the first value of the
key, or the empty string. -/
def Header.Get (h : Values) (key : String) : String :=
  match goIndex h key with
  | [] => ""
  | v :: _ => v

end http

/-- The conversion `[]byte(s)`: the UTF-8 bytes of a string. -/
def bytesOf (s : String) : List UInt8 :=
  s.toUTF8.data.toList

/-- The conversion `int32(x)`: two's-complement wrap-around to 32 bits. -/
def toInt32 (x : Int) : Int :=
  (x + 2 ^ 31) % 2 ^ 32 - 2 ^ 31

/-- A handler of the chain (`http.HandlerFunc`, or `ServeHTTP` of the
forwarder): it may write to the sink and change the request it is handed. -/
abbrev Handler := http.ResponseWriter → http.Request → http.ResponseWriter × http.Request

/-- The library functions the adapter calls.  A parse function returns `none`
where the Go function returns a non-nil error. -/
structure Lib where
  /-- `(*url.URL).String` -/
  urlString : URL → String
  /-- `(*url.URL).RequestURI` -/
  urlRequestURI : URL → String
  /-- `url.ParseRequestURI` -/
  parseRequestURI : String → Option URL
  /-- `url.ParseQuery` on the raw query string -/
  parseQuery : String → Option Values
  /-- `url.ParseQuery(string(body))` on the captured body bytes -/
  parseQueryBytes : List UInt8 → Option Values
  /-- `mime.ParseMediaType`: the media type and whether `err == nil` -/
  parseMediaType : String → String × Bool
  /-- `forward.New()`: the forwarder, or `none` on error -/
  forwardNew : Option Handler

/-! ## Plugin declarations (`plugin.go`) -/

/-- Source `Plugin`; the field `Type` is spelled `Kind` here, `Type` being
reserved. -/
structure Plugin where
  EntryName : String
  Path : String
  Kind : String
  Order : String
  Timeout : Int
deriving DecidableEq, Repr

def PluginGo : String := "go"
def PluginNetRPC : String := "netrpc"
def PluginGrpc : String := "grpc"
def PluginBefore : String := "before"
def PluginAfter : String := "after"
def PluginAround : String := "around"

/-- Source `Plugin.Before`. -/
def Plugin.Before (p : Plugin) : Bool :=
  p.Order == PluginBefore || p.Order == PluginAround

/-- Source `Plugin.After`. -/
def Plugin.After (p : Plugin) : Bool :=
  p.Order == PluginAfter || p.Order == PluginAround

/-- Source `Plugin.Around`. -/
def Plugin.Around (p : Plugin) : Bool :=
  p.Order == PluginAround

/-! ## The remote plugin adapter (`remotePlugin.go`) -/

namespace connectivity

/-- Go `connectivity.State` of a gRPC connection. -/
inductive State where
  | Idle
  | Connecting
  | Ready
  | TransientFailure
  | Shutdown
deriving DecidableEq, Repr

end connectivity

/-- Source `RemotePluginMiddlewareHandler`.  `conn` is nil (`none`) or a
connection in the state `GetState()` reports during the transaction.  `remote`
is the RPC stub: the plugin process is a state machine over `ρ`, and a call
returns the response, or `none` for a non-nil error, with the next state. -/
structure RemotePluginMiddlewareHandler (ρ : Type) where
  conn : Option connectivity.State
  remote : ρ → proto.Request → Option proto.Response × ρ
  plugin : Plugin

/-- Source `RemotePluginMiddlewareHandler.Name`. -/
def RemotePluginMiddlewareHandler.Name {ρ : Type} (h : RemotePluginMiddlewareHandler ρ) :
    String :=
  h.plugin.EntryName

/-- Source `RemotePluginMiddlewareHandler.Stop`: a non-nil connection is closed,
which leaves it in state `Shutdown`. -/
def RemotePluginMiddlewareHandler.Stop {ρ : Type} (h : RemotePluginMiddlewareHandler ρ) :
    RemotePluginMiddlewareHandler ρ :=
  match h.conn with
  | some _ => { h with conn := some connectivity.State.Shutdown }
  | none => h

/-- What one transaction can be observed to do, in order. -/
inductive Event where
  /-- `h.remote.ServeHTTP(req)` was invoked with this wire request -/
  | remote (req : proto.Request)
  /-- `next.ServeHTTP(rw, r)` was invoked -/
  | next
  /-- `executeRemotePlugin(rw, r, guid, before)` returned `result` to `ServeHTTP` -/
  | executed (before : Bool) (result : Bool)

/-- The state one transaction runs over: the response sink, the live request,
the plugin process, and the events so far, oldest first. -/
structure Tx (ρ : Type) where
  rw : http.ResponseWriter
  r : http.Request
  plugin : ρ
  trace : List Event

/-- Source `getBody`: the reader, or `none` for the error results. -/
def getBody (req : http.Request) : Option Reader :=
  match req.GetBody with
  | some g => g
  | none =>
    match req.Body with
    | some rd => some rd
    | none => none

/-- The live request after `createPluginRequest` has read its body: a body
read through `req.Body` itself is consumed, one read through `GetBody` is not. -/
def afterBodyRead (r : http.Request) : http.Request :=
  match r.GetBody with
  | some _ => r
  | none =>
    match r.Body with
    | some rd => { r with Body := some rd.drained }
    | none => r

/-- Source `createPluginRequest`: the wire request, and the live request as
the body read leaves it. -/
def createPluginRequest (L : Lib) (r : http.Request) (guid : String) :
    proto.Request × http.Request :=
  let body : List UInt8 :=
    match getBody r with
    | some bodyReader => (ReadAll bodyReader).1
    | none => []
  let form : Values :=
    match L.parseQuery r.URL.RawQuery with
    | some v => v
    | none => ∅
  let postfrom : Values :=
    if r.Method = "POST" ∨ r.Method = "PUT" ∨ r.Method = "PATCH" then
      let ct := http.Header.Get r.Header "Content-Type"
      if ct ≠ "" then
        let parsed := L.parseMediaType ct
        if parsed.1 = "application/x-www-form-urlencoded" ∧ parsed.2 = true then
          match L.parseQueryBytes body with
          | some v => v
          | none => ∅
        else ∅
      else ∅
    else ∅
  ({ RequestUuid := guid,
     Request :=
      { Header := valueList r.Header,
        Close := r.Close,
        ContentLength := r.ContentLength,
        Host := r.Host,
        Method := r.Method,
        FormValues := valueList form,
        PostFormValues := valueList postfrom,
        Proto := r.Proto,
        ProtoMajor := toInt32 r.ProtoMajor,
        ProtoMinor := toInt32 r.ProtoMinor,
        RemoteAddr := r.RemoteAddr,
        RequestUri := r.RequestURI,
        Trailer := valueList r.Trailer,
        TransferEncoding := r.TransferEncoding,
        Url := L.urlString r.URL,
        Body := body } },
   afterBodyRead r)

/-- Source `syncResponseHeaders`.  The guard `rw.Header != nil` compares a
method value with nil and is always true. -/
def syncResponseHeaders (r : proto.HttpResponse) (rw : http.ResponseWriter) :
    http.ResponseWriter :=
  let rh := mapOfStrings r.Header
  { rw with
    header := rh.foldl
      (fun headers k v =>
        let hv := goIndex headers k
        if hv.length = 0 then headers.insert k v
        else headers.insert k (goIndex headers k ++ v))
      rw.header }

/-- Source `syncRequest`: every field but `GetBody` is overwritten; the URL
only when the wire URL parses. -/
def syncRequest (L : Lib) (src : proto.HttpRequest) (dest : http.Request) : http.Request :=
  { dest with
    Close := src.Close,
    ContentLength := src.ContentLength,
    Form := mapOfStrings src.FormValues,
    Body := some { data := src.Body, fails := false },
    Header := mapOfStrings src.Header,
    Host := src.Host,
    Method := src.Method,
    PostForm := mapOfStrings src.PostFormValues,
    Proto := src.Proto,
    ProtoMajor := src.ProtoMajor,
    ProtoMinor := src.ProtoMinor,
    RemoteAddr := src.RemoteAddr,
    RequestURI := src.RequestUri,
    Trailer := mapOfStrings src.Trailer,
    TransferEncoding := src.TransferEncoding,
    URL :=
      match L.parseRequestURI src.Url with
      | some url => url
      | none => dest.URL }

/-- `rw.WriteHeader(code)` followed by `rw.Write(body)`. -/
def writeStatusAndBody (rw : http.ResponseWriter) (code : Int) (body : List UInt8) :
    http.ResponseWriter :=
  { rw with calls := rw.calls ++ [http.SinkCall.WriteHeader code, http.SinkCall.Write body] }

/-- The part of source `handlePluginResponse` after the redirect block: render,
generic status, or the plugin's flag. -/
def handlePluginResponseTail (pResp : proto.Response) (rw : http.ResponseWriter)
    (r : http.Request) : Bool × http.ResponseWriter × http.Request :=
  if pResp.RenderContent = true ∧ pResp.Response.Body.length > 0 then
    (true, writeStatusAndBody rw pResp.Response.StatusCode pResp.Response.Body, r)
  else if pResp.Response.StatusCode ≠ http.StatusOK then
    (true, writeStatusAndBody rw pResp.Response.StatusCode pResp.Response.Body, r)
  else
    (pResp.StopChain, rw, r)

/-- Source `handlePluginResponse`: the result, the sink and the live request. -/
def handlePluginResponse (L : Lib) (pResp : proto.Response) (rw : http.ResponseWriter)
    (r : http.Request) : Bool × http.ResponseWriter × http.Request :=
  let r1 := syncRequest L pResp.Request r
  let rw1 := syncResponseHeaders pResp.Response rw
  if pResp.Redirect = true then
    match L.parseRequestURI pResp.Request.Url with
    | some url =>
      let r2 := { r1 with URL := url, RequestURI := L.urlRequestURI url }
      match L.forwardNew with
      | some fwd =>
        let out := fwd rw1 r2
        (true, out.1, out.2)
      | none => handlePluginResponseTail pResp rw1 r2
    | none => handlePluginResponseTail pResp rw1 r1
  else handlePluginResponseTail pResp rw1 r1

/-- Source `executeRemotePlugin`.  The parameter `before` is not used by the
body. -/
def executeRemotePlugin {ρ : Type} (L : Lib) (h : RemotePluginMiddlewareHandler ρ)
    (guid : String) (_before : Bool) (s : Tx ρ) : Bool × Tx ρ :=
  match h.conn with
  | none => (false, s)
  | some state =>
    if state ≠ connectivity.State.Shutdown then
      let created := createPluginRequest L s.r guid
      let pluginRequest := created.1
      let answer := h.remote s.plugin pluginRequest
      let trace := s.trace ++ [Event.remote pluginRequest]
      match answer.1 with
      | none =>
        (true,
          { rw := writeStatusAndBody s.rw http.StatusServiceUnavailable
              (bytesOf (http.StatusText http.StatusServiceUnavailable)),
            r := created.2, plugin := answer.2, trace := trace })
      | some resp =>
        let out := handlePluginResponse L resp s.rw created.2
        (out.1, { rw := out.2.1, r := out.2.2, plugin := answer.2, trace := trace })
    else (false, s)

/-- First step of source `ServeHTTP`: the before-call when the declaration
runs before, with its result in `stopChain`. -/
def stageBefore {ρ : Type} (L : Lib) (h : RemotePluginMiddlewareHandler ρ) (guid : String)
    (s : Tx ρ) : Bool × Tx ρ :=
  if h.plugin.Before = true then
    let res := executeRemotePlugin L h guid true s
    (res.1, { res.2 with trace := res.2.trace ++ [Event.executed true res.1] })
  else (false, s)

/-- Second step of source `ServeHTTP`: `next` unless `stopChain` is set. -/
def stageNext {ρ : Type} (next : Handler) (first : Bool × Tx ρ) : Tx ρ :=
  if first.1 = false then
    let out := next first.2.rw first.2.r
    { first.2 with rw := out.1, r := out.2, trace := first.2.trace ++ [Event.next] }
  else first.2

/-- Source `RemotePluginMiddlewareHandler.ServeHTTP`.  `guid` is the string of
the fresh `uuid.NewV4()`; the result of the after-call is dropped. -/
def ServeHTTP {ρ : Type} (L : Lib) (h : RemotePluginMiddlewareHandler ρ) (guid : String)
    (next : Handler) (s : Tx ρ) : Tx ρ :=
  let second := stageNext next (stageBefore L h guid s)
  if h.plugin.After = true then
    let res := executeRemotePlugin L h guid false second
    { res.2 with trace := res.2.trace ++ [Event.executed false res.1] }
  else second

/-- The event is an invocation of `next`. -/
def Event.isNext : Event → Bool
  | Event.next => true
  | _ => false

/-- The event is a call of the remote procedure. -/
def Event.isRemote : Event → Bool
  | Event.remote _ => true
  | _ => false

/-- The correlation ids carried by the remote calls among the events. -/
def remoteUuids : List Event → List String
  | [] => []
  | Event.remote q :: rest => q.RequestUuid :: remoteUuids rest
  | _ :: rest => remoteUuids rest

/-- The events a transaction added to the trace it started from. -/
def newEvents {ρ : Type} (s t : Tx ρ) : List Event :=
  t.trace.drop s.trace.length

/-- The steps of `ServeHTTP` among the events: everything but the remote calls
made inside `executeRemotePlugin`. -/
def steps (evs : List Event) : List Event :=
  evs.filter (fun e => !e.isRemote)

/-- The connection test of `executeRemotePlugin`:
`h.conn != nil && h.conn.GetState() != connectivity.Shutdown`. -/
def usable (conn : Option connectivity.State) : Bool :=
  match conn with
  | none => false
  | some state => state != connectivity.State.Shutdown

/-- The remote-call events of one `executeRemotePlugin` started on a request. -/
def remoteCall {ρ : Type} (L : Lib) (h : RemotePluginMiddlewareHandler ρ) (guid : String)
    (r : http.Request) : List Event :=
  if usable h.conn = true then [Event.remote (createPluginRequest L r guid).1] else []

/-- The bytes the body of a live request delivers; none for a nil body. -/
def bodyBytes (r : http.Request) : List UInt8 :=
  match r.Body with
  | some rd => rd.data
  | none => []

/-- The round trip of the specification: build the wire request with
`createPluginRequest` and apply it back unchanged with `syncRequest`. -/
def echoRoundTrip (L : Lib) (r : http.Request) (guid : String) : http.Request :=
  syncRequest L (createPluginRequest L r guid).1.Request (createPluginRequest L r guid).2

/-! ## The registry (`manager.go`, `middleware.go`) -/

/-- Source interface `Middleware`: a value that has `ServeHTTP`, `Stop` and
`Name`.  It is the remote adapter, or an object handed back by an in-process
Go plugin, known here by what its `Name()` returns and a tag telling two such
objects apart. -/
inductive Middleware (ρ : Type) where
  | remotePlugin (h : RemotePluginMiddlewareHandler ρ)
  | goPlugin (name : String) (tag : Nat)

/-- The method `Name()` of a middleware. -/
def Middleware.Name {ρ : Type} : Middleware ρ → String
  | Middleware.remotePlugin h => h.Name
  | Middleware.goPlugin name _ => name

/-- The `interface{}` value a loader hands to `Load`: nil, a value that
implements `Middleware`, or a value that does not. -/
inductive Instance (ρ : Type) where
  | null
  | middleware (m : Middleware ρ)
  | other

/-- The errors `Load` can return, by the format string that builds them. -/
inductive LoadError where
  /-- `unknown plugin type: %s` -/
  | unknownPluginType (kind : String)
  /-- `plugin from %+v can not be loaded` -/
  | canNotBeLoaded (plugin : Plugin)
  /-- `plugin from %+v does not implement any plugin interface` -/
  | noPluginInterface (plugin : Plugin)
  /-- `error in plugin loading: %s` -/
  | pluginLoading (cause : String)
  /-- `error opening plugin: %s` -/
  | openingPlugin (cause : String)
  /-- `error in plugin Lookup: %s` -/
  | pluginLookup (cause : String)
  /-- `plugin from %+v does not implement Load() interface{} function` -/
  | noLoadFunction (plugin : Plugin)
deriving DecidableEq, Repr

/-- What the Go plugin runtime does with a path: `goplugin.Open` fails,
`Lookup("Load")` fails, the symbol is not a `func() interface{}`, the function
returns a value, or it panics. -/
inductive GoLoad (ρ : Type) where
  | openError (err : String)
  | lookupError (err : String)
  | notLoadFunction
  | loaded (inst : Instance ρ)
  | panicked

/-- The collaborators of loading.  `dialContext` is `grpc.DialContext` with the
path and the timeout in seconds: an error, or a connection given by its state
at the first `GetState()` and the states it changes to before the deadline.
`client` is the stub `proto.NewMiddlewareClient` builds on the connection. -/
structure Loaders (ρ : Type) where
  goPlugin : String → GoLoad ρ
  dialContext : String → Int → Except String (connectivity.State × List connectivity.State)
  client : String → ρ → proto.Request → Option proto.Response × ρ

/-- Source `waitClientReady`: true for the nil result.  A round of the loop
reads the state; `WaitForStateChange` moves to the next state, or reports the
deadline when there is none. -/
def waitClientReady (s : connectivity.State) (changes : List connectivity.State) : Bool :=
  if s = connectivity.State.Ready then true
  else
    match changes with
    | [] => false
    | s1 :: rest => waitClientReady s1 rest

/-- Source `NewRemotePluginMiddleware`. -/
def NewRemotePluginMiddleware {ρ : Type} (E : Loaders ρ) (p : Plugin) :
    Except String (RemotePluginMiddlewareHandler ρ) :=
  if p.Path = "" then Except.error "cant load remote plugin without addr"
  else
    match E.dialContext p.Path p.Timeout with
    | Except.error err => Except.error ("load plugin failed error " ++ err)
    | Except.ok conn =>
      if waitClientReady conn.1 conn.2 = true then
        Except.ok
          { conn := some connectivity.State.Ready, remote := E.client p.Path, plugin := p }
      else Except.error "load plugin failed error context deadline exceeded"

/-- What a loader leaves `Load` with: an error already sent on the channel (and
a nil instance), an instance, or a panic caught by the recover handler. -/
inductive Loaded (ρ : Type) where
  | sent (err : LoadError)
  | inst (i : Instance ρ)
  | fault

/-- Source `loadRemotePlugin`. -/
def loadRemotePlugin {ρ : Type} (E : Loaders ρ) (plugin : Plugin) : Loaded ρ :=
  match NewRemotePluginMiddleware E plugin with
  | Except.error err => Loaded.sent (LoadError.pluginLoading err)
  | Except.ok p => Loaded.inst (Instance.middleware (Middleware.remotePlugin p))

/-- Source `loadGoPlugin`. -/
def loadGoPlugin {ρ : Type} (E : Loaders ρ) (plugin : Plugin) : Loaded ρ :=
  match E.goPlugin plugin.Path with
  | GoLoad.openError err => Loaded.sent (LoadError.openingPlugin err)
  | GoLoad.lookupError err => Loaded.sent (LoadError.pluginLookup err)
  | GoLoad.notLoadFunction => Loaded.sent (LoadError.noLoadFunction plugin)
  | GoLoad.loaded i => Loaded.inst i
  | GoLoad.panicked => Loaded.fault

/-- The `switch plugin.Type` of source `Load`. -/
def instantiate {ρ : Type} (E : Loaders ρ) (plugin : Plugin) : Loaded ρ :=
  if plugin.Kind = PluginGo then loadGoPlugin E plugin
  else if plugin.Kind = PluginGrpc then loadRemotePlugin E plugin
  else Loaded.sent (LoadError.unknownPluginType plugin.Kind)

/-- Source `Manager`, as `NewManager` builds it and `Load` grows it: the map is
allocated. -/
structure Manager (ρ : Type) where
  middlewares : AList (fun _ : String => List (Middleware ρ))

/-- Source `NewManager`. -/
def NewManager {ρ : Type} : Manager ρ :=
  { middlewares := ∅ }

/-- The registry write of source `Load`: append to the list under
`middleware.Name()`, or start that list. -/
def Manager.register {ρ : Type} (m : Manager ρ) (middleware : Middleware ρ) : Manager ρ :=
  match m.middlewares.lookup middleware.Name with
  | some list =>
    { middlewares := m.middlewares.insert middleware.Name (list ++ [middleware]) }
  | none => { middlewares := m.middlewares.insert middleware.Name [middleware] }

/-- Source `Manager.Load`: the error received on the channel (`none` for nil)
and the manager afterwards.  `Load` returns what is sent first.  When the
loader panics, the recover handler given to `safe.GoWithRecover` only logs and
nothing is ever sent, so that `Load` does not return: the outer `none`. -/
def Manager.Load {ρ : Type} (E : Loaders ρ) (m : Manager ρ) (plugin : Plugin) :
    Option (Option LoadError × Manager ρ) :=
  match instantiate E plugin with
  | Loaded.sent err => some (some err, m)
  | Loaded.fault => none
  | Loaded.inst Instance.null => some (some (LoadError.canNotBeLoaded plugin), m)
  | Loaded.inst Instance.other => some (some (LoadError.noPluginInterface plugin), m)
  | Loaded.inst (Instance.middleware middleware) => some (none, m.register middleware)

/-- Source `Manager.GetMiddlewares`, on a receiver that may be nil. -/
def Manager.GetMiddlewares {ρ : Type} (m : Option (Manager ρ)) (entryname : String) :
    List (Middleware ρ) :=
  match m with
  | some m => (m.middlewares.lookup entryname).getD []
  | none => []

/-! ## Parsing declarations (`Plugins.Set`) -/

/-- Go `unicode.IsSpace`. -/
def isSpace (c : Char) : Bool :=
  let n := c.toNat
  (9 ≤ n && n ≤ 13) || n == 32 || n == 0x85 || n == 0xA0 || n == 0x1680 ||
  (0x2000 ≤ n && n ≤ 0x200A) || n == 0x2028 || n == 0x2029 || n == 0x202F ||
  n == 0x205F || n == 0x3000

/-- The scan behind `strings.Fields`: `cur` is the field being read. -/
def fieldsScan : List Char → List Char → List String
  | [], cur => if cur = [] then [] else [String.mk cur]
  | c :: cs, cur =>
    if isSpace c = true then
      if cur = [] then fieldsScan cs [] else String.mk cur :: fieldsScan cs []
    else fieldsScan cs (cur ++ [c])

/-- Go `strings.Fields`: the maximal runs of non-space characters, in order. -/
def Fields (s : String) : List String :=
  fieldsScan s.toList []

/-- Go `strings.SplitN(s, ":", 2)`: the text before and after the first colon,
or the whole string alone when it has none. -/
def SplitN2 (s : String) : List String :=
  match s.toList.span (fun c => c != ':') with
  | (a, []) => [String.mk a]
  | (a, _ :: b) => [String.mk a, String.mk b]

/-- Go `strconv.ParseInt(s, 10, 64)`: the value, or `none` for a syntax or
range error. -/
def ParseInt (s : String) : Option Int :=
  let cs := s.toList
  let neg : Bool := cs.head? = some '-'
  let ds : List Char :=
    match cs with
    | '+' :: t => t
    | '-' :: t => t
    | _ => cs
  if ds = [] ∨ ds.all Char.isDigit = false then none
  else
    let un : Nat := ds.foldl (fun a c => 10 * a + (c.toNat - 48)) 0
    if neg = true then
      if un ≤ 2 ^ 63 then some (-(un : Int)) else none
    else
      if un < 2 ^ 63 then some (un : Int) else none

/-- Source `Plugins`. -/
abbrev Plugins := List Plugin

/-- The errors of `Plugins.Set`, by format string. -/
inductive SetError where
  /-- `bad Plugin format: %s` -/
  | badPluginFormat (str : String)
  /-- `bad Plugin definition format: %s` -/
  | badDefinitionFormat (exp : String)
deriving DecidableEq, Repr

/-- The zero value `Plugin{}`. -/
def Plugin.zero : Plugin :=
  { EntryName := "", Path := "", Kind := "", Order := "", Timeout := 0 }

/-- The `switch strings.ToLower(field[0])` of `Plugins.Set`; `lower` is
`strings.ToLower`. -/
def setAttribute (lower : String → String) (key value : String) : Plugin :=
  let tem := Plugin.zero
  if lower key = "name" then { tem with EntryName := value }
  else if lower key = "path" then { tem with Path := value }
  else if lower key = "type" then { tem with Kind := value }
  else if lower key = "order" then { tem with Order := value }
  else if lower key = "timeout" then
    match ParseInt value with
    | some timeout => { tem with Timeout := timeout }
    | none => tem
  else tem

/-- The loop of `Plugins.Set` over the fields still to read: the first field
without a colon ends it with an error, what was appended before stays. -/
def setLoop (lower : String → String) : List String → Plugins → Option SetError × Plugins
  | [], p => (none, p)
  | exp :: rest, p =>
    match SplitN2 exp with
    | [key, value] => setLoop lower rest (p ++ [setAttribute lower key value])
    | _ => (some (SetError.badDefinitionFormat exp), p)

/-- Source `Plugins.Set`: the error (`none` for nil) and the receiver
afterwards.  `lower` is `strings.ToLower`. -/
def Plugins.Set (lower : String → String) (p : Plugins) (str : String) :
    Option SetError × Plugins :=
  let exps := Fields str
  if exps.length = 0 then (some (SetError.badPluginFormat str), p)
  else setLoop lower exps p

/-- What the specification says of one field and the plugin appended for it:
the field is a key without colon, a colon and a value, and each attribute of
the plugin is the value when the lower-cased key names it (for the timeout,
the integer the value spells, if it spells one) and the zero value
otherwise. -/
def fieldDescribes (lower : String → String) (field : String) (q : Plugin) : Prop :=
  ∃ key value : String,
    field.toList = key.toList ++ ':' :: value.toList ∧
    ':' ∉ key.toList ∧
    q.EntryName = (if lower key = "name" then value else "") ∧
    q.Path = (if lower key = "path" then value else "") ∧
    q.Kind = (if lower key = "type" then value else "") ∧
    q.Order = (if lower key = "order" then value else "") ∧
    q.Timeout = (if lower key = "timeout" then (ParseInt value).getD 0 else 0)

/-! ## Concrete inputs -/

/-- A URL that has only a path. -/
def pathURL (path : String) : URL :=
  { Scheme := "", Opaque := "", User := none, Host := "", Path := path, RawPath := "",
    ForceQuery := false, RawQuery := "", Fragment := "" }

/-- A small stand-in for the library: a URL prints as its path, a non-empty
string parses to the URL with that path, queries parse to the empty map, a
media type parses to itself, and no forwarder can be built. -/
def sampleLib : Lib :=
  { urlString := fun u => u.Path,
    urlRequestURI := fun u => u.Path,
    parseRequestURI := fun s => if s = "" then none else some (pathURL s),
    parseQuery := fun _ => some ∅,
    parseQueryBytes := fun _ => some ∅,
    parseMediaType := fun s => (s, true),
    forwardNew := none }

/-- A server-side request `GET /x` with a two-byte body and one header. -/
def sampleRequest : http.Request :=
  { Method := "GET", URL := pathURL "/x", Proto := "HTTP/1.1", ProtoMajor := 1,
    ProtoMinor := 1, Header := AList.insert "Accept" ["a", "b"] ∅,
    Body := some { data := [104, 105], fails := false }, GetBody := none,
    ContentLength := 2, TransferEncoding := [], Close := false, Host := "h",
    Form := ∅, PostForm := ∅, Trailer := ∅, RemoteAddr := "1.2.3.4:5", RequestURI := "/x" }

/-- An empty response sink. -/
def sampleSink : http.ResponseWriter :=
  { header := ∅, calls := [] }

/-- A plugin response that echoes the wire request and carries the given
status, body and flags, with no response headers. -/
def sampleResponse (q : proto.HttpRequest) (status : Int) (body : List UInt8)
    (redirect render stop : Bool) : proto.Response :=
  { Request := q, Response := { StatusCode := status, Header := ∅, Body := body },
    Redirect := redirect, RenderContent := render, StopChain := stop }

/-- A plugin process that counts its calls and answers each with an echo of
the request, status 200, no body and no flag set. -/
def echoRemote : Nat → proto.Request → Option proto.Response × Nat :=
  fun n q => (some (sampleResponse q.Request 200 [] false false false), n + 1)

/-- A plugin process every call to which fails. -/
def failingRemote : Nat → proto.Request → Option proto.Response × Nat :=
  fun n _ => (none, n + 1)

/-- A declaration at entry point `web` with the given kind and order. -/
def samplePlugin (kind order : String) : Plugin :=
  { EntryName := "web", Path := "127.0.0.1:22803", Kind := kind, Order := order, Timeout := 5 }

/-- An inner handler that writes status 204 and leaves the request alone. -/
def sampleNext : Handler :=
  fun rw r => ({ rw with calls := rw.calls ++ [http.SinkCall.WriteHeader 204] }, r)

/-- The start of a transaction on `sampleRequest`. -/
def sampleTx : Tx Nat :=
  { rw := sampleSink, r := sampleRequest, plugin := 0, trace := [] }

/-- The sample request with a `GetBody` function that returns an error. -/
def unreadableRequest : http.Request :=
  { sampleRequest with GetBody := some none }

/-- A stand-in for the URL library that prints fragments: a URL prints as its
path, followed by `#` and the fragment when it has one; a non-empty string
parses, as a request URI, to the URL whose path is the whole string (a request
URI has no fragment part), with `RawPath` that string when it holds a `#`.  On
the URL with path `/x` and fragment `f` this is what `net/url` does: `String`
gives `/x#f`, and `ParseRequestURI` of `/x#f` gives `Path` and `RawPath` both
`/x#f` and no fragment. -/
def fragmentLib : Lib :=
  { sampleLib with
    urlString := fun u => if u.Fragment = "" then u.Path else u.Path ++ "#" ++ u.Fragment,
    parseRequestURI := fun s =>
      if s = "" then none
      else some { pathURL s with RawPath := if '#' ∈ s.toList then s else "" } }

/-- The sample request with the fragment `f` set on its URL. -/
def fragmentRequest : http.Request :=
  { sampleRequest with URL := { pathURL "/x" with Fragment := "f" } }

/-- Loaders for the examples: the path `other.so` holds a Go plugin whose
object answers `Name()` with `other`, every other path fails to open; every
dial succeeds with a connection that becomes ready after two changes. -/
def sampleLoaders : Loaders Nat :=
  { goPlugin := fun path =>
      if path = "other.so" then
        GoLoad.loaded (Instance.middleware (Middleware.goPlugin "other" 7))
      else GoLoad.openError "no such file",
    dialContext := fun _ _ =>
      Except.ok (connectivity.State.Idle,
        [connectivity.State.Connecting, connectivity.State.Ready]),
    client := fun _ => echoRemote }

/-- A declaration of the Go plugin at `other.so` for entry point `web`. -/
def goDeclaration : Plugin :=
  { EntryName := "web", Path := "other.so", Kind := "go", Order := "before", Timeout := 0 }

/-- ASCII lower-casing, standing in for `strings.ToLower` in the examples. -/
def asciiLower (s : String) : String :=
  String.mk (s.toList.map Char.toLower)

/-! ## Lemmas on folds over maps -/

/-- Folding `insert` of a transformed value over a duplicate-free entry list:
the result maps a key of the list to its transformed value and leaves the
accumulator's other keys alone. -/
theorem lookup_foldl_insert {β γ : Type} (g : β → γ) (k : String) :
    ∀ (l : List (Sigma fun _ : String => β)), l.NodupKeys →
      ∀ acc : AList (fun _ : String => γ),
        (l.foldl (fun p e => p.insert e.1 (g e.2)) acc).lookup k =
          match l.dlookup k with
          | some v => some (g v)
          | none => acc.lookup k := by
  intro l
  induction l with
  | nil => intro _ acc; simp
  | cons e l ih =>
    intro hnd acc
    obtain ⟨a, b⟩ := e
    rw [List.nodupKeys_cons] at hnd
    rw [List.foldl_cons, ih hnd.2]
    by_cases hka : k = a
    · subst hka
      have hnone : l.dlookup k = none := by
        rw [List.dlookup_eq_none]; exact hnd.1
      simp [hnone, List.dlookup_cons_eq, AList.lookup_insert]
    · have hak : a ≠ k := fun h => hka h.symm
      rw [List.dlookup_cons_ne _ _ hka]
      cases hl : l.dlookup k with
      | some v => simp
      | none => simp [AList.lookup_insert_ne hka]

theorem lookup_mapOfStrings (m : WireValues) (k : String) :
    (mapOfStrings m).lookup k = (m.lookup k).map proto.ValueList.Value := by
  unfold mapOfStrings AList.foldl
  rw [lookup_foldl_insert proto.ValueList.Value k m.entries m.nodupKeys ∅]
  unfold AList.lookup
  cases m.entries.dlookup k <;> simp

theorem lookup_valueList (m : Values) (k : String) :
    (valueList m).lookup k = (m.lookup k).map proto.ValueList.mk := by
  unfold valueList AList.foldl
  rw [lookup_foldl_insert proto.ValueList.mk k m.entries m.nodupKeys ∅]
  unfold AList.lookup
  cases m.entries.dlookup k <;> simp

/-- The merge loop of `syncResponseHeaders` over a duplicate-free entry list:
a key of the list ends up with the live values followed by the plugin's, every
other key keeps its binding. -/
theorem lookup_foldl_merge (k : String) :
    ∀ (l : List (Sigma fun _ : String => List String)), l.NodupKeys →
      ∀ acc : Values,
        (l.foldl
          (fun (headers : Values) e =>
            let hv := goIndex headers e.1
            if hv.length = 0 then headers.insert e.1 e.2
            else headers.insert e.1 (goIndex headers e.1 ++ e.2)) acc).lookup k =
          match l.dlookup k with
          | some v => some (goIndex acc k ++ v)
          | none => acc.lookup k := by
  intro l
  induction l with
  | nil => intro _ acc; simp
  | cons e l ih =>
    intro hnd acc
    obtain ⟨a, b⟩ := e
    rw [List.nodupKeys_cons] at hnd
    rw [List.foldl_cons, ih hnd.2]
    by_cases hka : k = a
    · subst hka
      have hnone : l.dlookup k = none := by
        rw [List.dlookup_eq_none]; exact hnd.1
      simp only [hnone, List.dlookup_cons_eq]
      by_cases hlen : (goIndex acc k).length = 0
      · have hnil : goIndex acc k = [] := List.length_eq_zero.mp hlen
        simp [hnil, AList.lookup_insert]
      · simp [hlen, AList.lookup_insert]
    · rw [List.dlookup_cons_ne _ _ hka]
      have hkeep : ∀ w : List String, (acc.insert a w).lookup k = acc.lookup k :=
        fun w => AList.lookup_insert_ne hka
      have hstep : (if (goIndex acc a).length = 0 then acc.insert a b
            else acc.insert a (goIndex acc a ++ b)).lookup k = acc.lookup k := by
        split_ifs
        · exact hkeep _
        · exact hkeep _
      cases hl : l.dlookup k with
      | some v =>
        show some (goIndex _ k ++ v) = some (goIndex acc k ++ v)
        have hidx : goIndex (if (goIndex acc a).length = 0 then acc.insert a b
            else acc.insert a (goIndex acc a ++ b)) k = goIndex acc k := by
          unfold goIndex at hstep ⊢
          rw [hstep]
        rw [hidx]
      | none => exact hstep

theorem lookup_syncResponseHeaders (r : proto.HttpResponse) (rw : http.ResponseWriter) (k : String) :
    (syncResponseHeaders r rw).header.lookup k =
      match r.Header.lookup k with
      | some v => some (goIndex rw.header k ++ v.Value)
      | none => rw.header.lookup k := by
  unfold syncResponseHeaders
  simp only [AList.foldl]
  rw [lookup_foldl_merge k _ (mapOfStrings r.Header).nodupKeys rw.header]
  have h := lookup_mapOfStrings r.Header k
  unfold AList.lookup at h
  rw [h]
  cases hl : r.Header.lookup k with
  | some v => have hl2 : List.dlookup k r.Header.entries = some v := hl
              simp [hl2]
  | none => have hl2 : List.dlookup k r.Header.entries = none := hl
            simp [hl2]

theorem calls_syncResponseHeaders (r : proto.HttpResponse) (rw : http.ResponseWriter) :
    (syncResponseHeaders r rw).calls = rw.calls := rfl

/-! ## Header merge (C6) -/

/-- C6. After `syncResponseHeaders` the live header map binds every key of the
plugin's header multimap to the live values followed by the plugin's values
(which is just the plugin's values when the live map has none), and every
other key exactly as before; the output calls on the sink are untouched.
Live `X: [a]` merged with plugin `X: [b]` gives `X: [a, b]`. -/
theorem syncResponseHeaders_merge :
    (∀ (H : Values) (P : WireValues) (code : Int) (body : List UInt8)
        (calls : List http.SinkCall) (k : String),
        let R := syncResponseHeaders ⟨code, P, body⟩ ⟨H, calls⟩
        R.calls = calls ∧
        R.header.lookup k =
          match P.lookup k with
          | some v => some (goIndex H k ++ v.Value)
          | none => H.lookup k) ∧
    (syncResponseHeaders
        ⟨200, AList.insert "X" ⟨["b"]⟩ ∅, []⟩
        ⟨AList.insert "X" ["a"] ∅, []⟩).header.lookup "X" = some ["a", "b"] := by
  refine ⟨?_, ?_⟩
  · intro H P code body calls k
    exact ⟨rfl, lookup_syncResponseHeaders ⟨code, P, body⟩ ⟨H, calls⟩ k⟩
  · rw [lookup_syncResponseHeaders]
    rfl

/-! ## The adapter: one remote call -/

/-- The events one `executeRemotePlugin` adds: the remote call when the
connection is usable, nothing otherwise. -/
theorem executeRemotePlugin_trace {ρ : Type} (L : Lib) (h : RemotePluginMiddlewareHandler ρ)
    (guid : String) (before : Bool) (s : Tx ρ) :
    (executeRemotePlugin L h guid before s).2.trace =
      s.trace ++ (if usable h.conn = true then
        [Event.remote (createPluginRequest L s.r guid).1] else []) := by
  unfold executeRemotePlugin usable
  cases hc : h.conn with
  | none => simp
  | some state =>
    by_cases hs : state = connectivity.State.Shutdown
    · simp [hs]
    · simp only [ne_eq, hs, not_false_eq_true, if_true]
      cases hr : (h.remote s.plugin (createPluginRequest L s.r guid).1).1 <;> simp [hs]

theorem executeRemotePlugin_of_not_usable {ρ : Type} (L : Lib)
    (h : RemotePluginMiddlewareHandler ρ) (guid : String) (before : Bool) (s : Tx ρ)
    (hu : usable h.conn = false) :
    executeRemotePlugin L h guid before s = (false, s) := by
  unfold executeRemotePlugin
  unfold usable at hu
  cases hc : h.conn with
  | none => rfl
  | some state =>
    rw [hc] at hu
    have hs : state = connectivity.State.Shutdown := by simpa using hu
    simp [hs]

theorem createPluginRequest_uuid (L : Lib) (r : http.Request) (guid : String) :
    (createPluginRequest L r guid).1.RequestUuid = guid := rfl

theorem createPluginRequest_live (L : Lib) (r : http.Request) (guid : String) :
    (createPluginRequest L r guid).2 = afterBodyRead r := rfl

/-- Reading the body changes no field of the live request but `Body`. -/
theorem afterBodyRead_fields (r : http.Request) :
    { afterBodyRead r with Body := r.Body } = r := by
  cases r with
  | mk m u p pa pi hd body getBody cl te c ho f pf t ra ru =>
    cases getBody with
    | some g => rfl
    | none =>
      cases body with
      | some rd => rfl
      | none => rfl

/-! ## Response application policy (C1) -/

/-- C1. When the plugin response has `Redirect` unset, `handlePluginResponse`
first applies the plugin's request to the live request and merges the plugin's
response headers, and then: if `RenderContent` is set and the body is
non-empty, or else if the status code is not 200, it writes the plugin's status
code and then the plugin's body to the sink and returns true; otherwise it
writes nothing and returns the plugin's `StopChain` flag. -/
theorem handlePluginResponse_fixed_priority (L : Lib) (pResp : proto.Response)
    (rw : http.ResponseWriter) (r : http.Request) (hred : pResp.Redirect = false) :
    handlePluginResponse L pResp rw r =
      if (pResp.RenderContent = true ∧ pResp.Response.Body ≠ []) ∨
          pResp.Response.StatusCode ≠ 200 then
        (true,
          { header := (syncResponseHeaders pResp.Response rw).header,
            calls := rw.calls ++
              [http.SinkCall.WriteHeader pResp.Response.StatusCode,
               http.SinkCall.Write pResp.Response.Body] },
          syncRequest L pResp.Request r)
      else
        (pResp.StopChain, syncResponseHeaders pResp.Response rw,
          syncRequest L pResp.Request r) := by
  unfold handlePluginResponse handlePluginResponseTail writeStatusAndBody
  simp only [hred, Bool.false_eq_true, if_false, http.StatusOK]
  have hlen : pResp.Response.Body.length > 0 ↔ pResp.Response.Body ≠ [] :=
    List.length_pos
  by_cases h1 : pResp.RenderContent = true ∧ pResp.Response.Body ≠ []
  · have h1l : pResp.RenderContent = true ∧ pResp.Response.Body.length > 0 :=
      ⟨h1.1, hlen.mpr h1.2⟩
    rw [if_pos h1l, if_pos (Or.inl h1)]
    rfl
  · have h1l : ¬ (pResp.RenderContent = true ∧ pResp.Response.Body.length > 0) :=
      fun hh => h1 ⟨hh.1, hlen.mp hh.2⟩
    rw [if_neg h1l]
    by_cases h2 : pResp.Response.StatusCode ≠ 200
    · rw [if_pos h2, if_pos (Or.inr h2)]
      rfl
    · rw [if_neg h2, if_neg (not_or.mpr ⟨h1, h2⟩)]

/-- C1 at a response with status 404, a one-byte body and no flag set: the
hypothesis holds and the chain is reported terminated. -/
theorem handlePluginResponse_fixed_priority_witness :
    (sampleResponse (createPluginRequest sampleLib sampleRequest "id").1.Request
        404 [104] false false true).Redirect = false ∧
    handlePluginResponse sampleLib
        (sampleResponse (createPluginRequest sampleLib sampleRequest "id").1.Request
          404 [104] false false true) sampleSink sampleRequest =
      (true,
        { header := sampleSink.header,
          calls := [http.SinkCall.WriteHeader 404, http.SinkCall.Write [104]] },
        syncRequest sampleLib
          (createPluginRequest sampleLib sampleRequest "id").1.Request sampleRequest) :=
  ⟨rfl, by
    rw [handlePluginResponse_fixed_priority sampleLib _ sampleSink sampleRequest rfl]
    rfl⟩

/-! ## Remote failure and stopped connection (C4, C5) -/

/-- C4. With a usable connection (non-nil, not `Shutdown`) and a remote call
that returns an error, `executeRemotePlugin` returns true, writes status 503
and then the body `Service Unavailable` to the sink, leaves the sink's headers
alone, and applies nothing to the live request: the request is as
`createPluginRequest` left it, equal to the original in every field but the
body stream that was read. -/
theorem executeRemotePlugin_remote_error {ρ : Type} (L : Lib)
    (h : RemotePluginMiddlewareHandler ρ) (guid : String) (before : Bool) (s : Tx ρ)
    (state : connectivity.State) (hconn : h.conn = some state)
    (hstate : state ≠ connectivity.State.Shutdown)
    (herr : (h.remote s.plugin (createPluginRequest L s.r guid).1).1 = none) :
    (executeRemotePlugin L h guid before s).1 = true ∧
    (executeRemotePlugin L h guid before s).2.rw =
      { header := s.rw.header,
        calls := s.rw.calls ++
          [http.SinkCall.WriteHeader 503,
           http.SinkCall.Write (bytesOf "Service Unavailable")] } ∧
    (executeRemotePlugin L h guid before s).2.r = afterBodyRead s.r ∧
    { (executeRemotePlugin L h guid before s).2.r with Body := s.r.Body } = s.r ∧
    (executeRemotePlugin L h guid before s).2.trace =
      s.trace ++ [Event.remote (createPluginRequest L s.r guid).1] := by
  have hexec : executeRemotePlugin L h guid before s =
      (true,
        { rw := writeStatusAndBody s.rw http.StatusServiceUnavailable
            (bytesOf (http.StatusText http.StatusServiceUnavailable)),
          r := (createPluginRequest L s.r guid).2,
          plugin := (h.remote s.plugin (createPluginRequest L s.r guid).1).2,
          trace := s.trace ++ [Event.remote (createPluginRequest L s.r guid).1] }) := by
    unfold executeRemotePlugin
    simp only [hconn, ne_eq, hstate, not_false_eq_true, if_true, herr]
  rw [hexec]
  refine ⟨rfl, rfl, rfl, ?_, rfl⟩
  exact afterBodyRead_fields s.r

/-- C4 at a ready connection whose remote always fails. -/
theorem executeRemotePlugin_remote_error_witness :
    (executeRemotePlugin sampleLib
        ⟨some connectivity.State.Ready, failingRemote, samplePlugin "grpc" "before"⟩
        "id" true sampleTx).1 = true ∧
    (executeRemotePlugin sampleLib
        ⟨some connectivity.State.Ready, failingRemote, samplePlugin "grpc" "before"⟩
        "id" true sampleTx).2.rw.calls =
      [http.SinkCall.WriteHeader 503,
       http.SinkCall.Write
        [83, 101, 114, 118, 105, 99, 101, 32, 85, 110, 97, 118, 97, 105, 108, 97, 98, 108, 101]] :=
  have w := executeRemotePlugin_remote_error sampleLib
    ⟨some connectivity.State.Ready, failingRemote, samplePlugin "grpc" "before"⟩
    "id" true sampleTx connectivity.State.Ready rfl (by decide) rfl
  ⟨w.1, by rw [w.2.1]; rfl⟩

/-! ## The execution protocol of `ServeHTTP` -/

theorem Plugin.Before_iff (p : Plugin) :
    p.Before = true ↔ (p.Order = "before" ∨ p.Order = "around") := by
  simp [Plugin.Before, PluginBefore, PluginAround]

theorem Plugin.After_iff (p : Plugin) :
    p.After = true ↔ (p.Order = "after" ∨ p.Order = "around") := by
  simp [Plugin.After, PluginAfter, PluginAround]

theorem stageBefore_trace {ρ : Type} (L : Lib) (h : RemotePluginMiddlewareHandler ρ)
    (guid : String) (s : Tx ρ) :
    (stageBefore L h guid s).2.trace =
      s.trace ++ (if h.plugin.Before = true then
        remoteCall L h guid s.r ++
          [Event.executed true (executeRemotePlugin L h guid true s).1]
        else []) := by
  unfold stageBefore remoteCall
  by_cases hb : h.plugin.Before = true
  · simp only [hb, if_true]
    rw [executeRemotePlugin_trace, List.append_assoc]
  · simp [hb]

theorem stageBefore_result {ρ : Type} (L : Lib) (h : RemotePluginMiddlewareHandler ρ)
    (guid : String) (s : Tx ρ) :
    (stageBefore L h guid s).1 =
      (h.plugin.Before && (executeRemotePlugin L h guid true s).1) := by
  unfold stageBefore
  by_cases hb : h.plugin.Before = true
  · simp [hb]
  · simp [hb]

theorem stageNext_trace {ρ : Type} (next : Handler) (first : Bool × Tx ρ) :
    (stageNext next first).trace =
      first.2.trace ++ (if first.1 = false then [Event.next] else []) := by
  unfold stageNext
  by_cases hf : first.1 = false
  · simp [hf]
  · simp [hf]

/-- The events of one transaction, stage by stage. -/
theorem ServeHTTP_newEvents {ρ : Type} (L : Lib) (h : RemotePluginMiddlewareHandler ρ)
    (guid : String) (next : Handler) (s : Tx ρ) :
    newEvents s (ServeHTTP L h guid next s) =
      (if h.plugin.Before = true then
        remoteCall L h guid s.r ++
          [Event.executed true (executeRemotePlugin L h guid true s).1]
        else []) ++
      (if (stageBefore L h guid s).1 = false then [Event.next] else []) ++
      (if h.plugin.After = true then
        remoteCall L h guid (stageNext next (stageBefore L h guid s)).r ++
          [Event.executed false
            (executeRemotePlugin L h guid false
              (stageNext next (stageBefore L h guid s))).1]
        else []) := by
  have htrace : (ServeHTTP L h guid next s).trace =
      s.trace ++ ((if h.plugin.Before = true then
        remoteCall L h guid s.r ++
          [Event.executed true (executeRemotePlugin L h guid true s).1]
        else []) ++
      (if (stageBefore L h guid s).1 = false then [Event.next] else []) ++
      (if h.plugin.After = true then
        remoteCall L h guid (stageNext next (stageBefore L h guid s)).r ++
          [Event.executed false
            (executeRemotePlugin L h guid false
              (stageNext next (stageBefore L h guid s))).1]
        else [])) := by
    unfold ServeHTTP
    by_cases ha : h.plugin.After = true
    · simp only [ha, if_true]
      rw [executeRemotePlugin_trace, stageNext_trace, stageBefore_trace]
      simp only [remoteCall, List.append_assoc]
    · simp only [ha, Bool.false_eq_true, if_false]
      rw [stageNext_trace, stageBefore_trace]
      simp only [List.append_assoc, List.append_nil]
  unfold newEvents
  rw [htrace, List.drop_left]

theorem steps_append (a b : List Event) : steps (a ++ b) = steps a ++ steps b := by
  unfold steps
  exact List.filter_append a b

theorem steps_remoteCall {ρ : Type} (L : Lib) (h : RemotePluginMiddlewareHandler ρ)
    (guid : String) (r : http.Request) : steps (remoteCall L h guid r) = [] := by
  unfold steps remoteCall
  split <;> rfl

theorem remoteUuids_append (a b : List Event) :
    remoteUuids (a ++ b) = remoteUuids a ++ remoteUuids b := by
  induction a with
  | nil => rfl
  | cons e a ih =>
    cases e with
    | remote q => simp [remoteUuids, ih]
    | next => simpa [remoteUuids] using ih
    | executed b r => simpa [remoteUuids] using ih

theorem remoteUuids_remoteCall {ρ : Type} (L : Lib) (h : RemotePluginMiddlewareHandler ρ)
    (guid : String) (r : http.Request) :
    remoteUuids (remoteCall L h guid r) = if usable h.conn = true then [guid] else [] := by
  unfold remoteCall
  split <;> rfl

/-! ## Ordering of the three steps (C3) -/

/-- C3. For every declaration and transaction the steps of `ServeHTTP` are, in
this order: the before-call exactly when the order is `before` or `around`;
`next`, once, exactly when there was no before-call or it returned false; the
after-call exactly when the order is `after` or `around`.  For order `before`
the steps are the before-call and then `next` iff its result is false, with no
after-call; for order `after` the first event of all is `next`, followed by
the after-call, whose result is the last thing recorded. -/
theorem ServeHTTP_step_order {ρ : Type} (L : Lib) (h : RemotePluginMiddlewareHandler ρ)
    (guid : String) (next : Handler) (s : Tx ρ) :
    (h.plugin.Before = true ↔ (h.plugin.Order = "before" ∨ h.plugin.Order = "around")) ∧
    (h.plugin.After = true ↔ (h.plugin.Order = "after" ∨ h.plugin.Order = "around")) ∧
    (∃ b2 : Bool,
      steps (newEvents s (ServeHTTP L h guid next s)) =
        (if h.plugin.Before = true then
          [Event.executed true (executeRemotePlugin L h guid true s).1] else []) ++
        (if h.plugin.Before = false ∨ (executeRemotePlugin L h guid true s).1 = false then
          [Event.next] else []) ++
        (if h.plugin.After = true then [Event.executed false b2] else [])) ∧
    (h.plugin.Order = "before" →
      steps (newEvents s (ServeHTTP L h guid next s)) =
        Event.executed true (executeRemotePlugin L h guid true s).1 ::
          (if (executeRemotePlugin L h guid true s).1 = false then [Event.next] else [])) ∧
    (h.plugin.Order = "after" →
      ∃ b2 : Bool,
        newEvents s (ServeHTTP L h guid next s) =
          Event.next :: (remoteCall L h guid (next s.rw s.r).2 ++ [Event.executed false b2])) := by
  have hnext : ((stageBefore L h guid s).1 = false) ↔
      (h.plugin.Before = false ∨ (executeRemotePlugin L h guid true s).1 = false) := by
    rw [stageBefore_result]
    cases h.plugin.Before <;> cases (executeRemotePlugin L h guid true s).1 <;> simp
  have hsteps : steps (newEvents s (ServeHTTP L h guid next s)) =
        (if h.plugin.Before = true then
          [Event.executed true (executeRemotePlugin L h guid true s).1] else []) ++
        (if h.plugin.Before = false ∨ (executeRemotePlugin L h guid true s).1 = false then
          [Event.next] else []) ++
        (if h.plugin.After = true then
          [Event.executed false
            (executeRemotePlugin L h guid false
              (stageNext next (stageBefore L h guid s))).1] else []) := by
    rw [ServeHTTP_newEvents, steps_append, steps_append]
    congr 1
    · congr 1
      · by_cases hb : h.plugin.Before = true
        · simp only [hb, if_true, steps_append, steps_remoteCall]
          rfl
        · simp only [hb, Bool.false_eq_true, if_false]
          rfl
      · by_cases hn : (stageBefore L h guid s).1 = false
        · rw [if_pos hn, if_pos (hnext.mp hn)]
          rfl
        · rw [if_neg hn, if_neg (fun hh => hn (hnext.mpr hh))]
          rfl
    · by_cases ha : h.plugin.After = true
      · simp only [ha, if_true, steps_append, steps_remoteCall]
        rfl
      · simp only [ha, Bool.false_eq_true, if_false]
        rfl
  refine ⟨Plugin.Before_iff _, Plugin.After_iff _, ⟨_, hsteps⟩, ?_, ?_⟩
  · intro ho
    have hb : h.plugin.Before = true := (Plugin.Before_iff _).mpr (Or.inl ho)
    have ha : h.plugin.After = false := by
      simp [Plugin.After, PluginAfter, PluginAround, ho]
    rw [hsteps]
    simp [hb, ha]
  · intro ho
    have hb : h.plugin.Before = false := by
      simp [Plugin.Before, PluginBefore, PluginAround, ho]
    have ha : h.plugin.After = true := (Plugin.After_iff _).mpr (Or.inl ho)
    have hst : stageBefore L h guid s = (false, s) := by
      unfold stageBefore
      simp [hb]
    refine ⟨(executeRemotePlugin L h guid false (stageNext next (false, s))).1, ?_⟩
    rw [ServeHTTP_newEvents, hst]
    simp only [hb, ha, Bool.false_eq_true, if_false, if_true, List.nil_append,
      List.singleton_append]
    rfl

/-- C3 at a `before` declaration and at an `after` declaration, both on a
ready connection to the echoing plugin. -/
theorem ServeHTTP_step_order_witness :
    (samplePlugin "grpc" "before").Order = "before" ∧
    steps (newEvents sampleTx
      (ServeHTTP sampleLib
        ⟨some connectivity.State.Ready, echoRemote, samplePlugin "grpc" "before"⟩
        "id" sampleNext sampleTx)) = [Event.executed true false, Event.next] ∧
    (samplePlugin "grpc" "after").Order = "after" ∧
    (newEvents sampleTx
      (ServeHTTP sampleLib
        ⟨some connectivity.State.Ready, echoRemote, samplePlugin "grpc" "after"⟩
        "id" sampleNext sampleTx)).head? = some Event.next :=
  ⟨rfl,
    ((ServeHTTP_step_order sampleLib
      ⟨some connectivity.State.Ready, echoRemote, samplePlugin "grpc" "before"⟩
      "id" sampleNext sampleTx).2.2.2.1 rfl).trans rfl,
    rfl,
    by
      obtain ⟨b2, hb2⟩ := (ServeHTTP_step_order sampleLib
        ⟨some connectivity.State.Ready, echoRemote, samplePlugin "grpc" "after"⟩
        "id" sampleNext sampleTx).2.2.2.2 rfl
      rw [hb2]
      rfl⟩

/-! ## Stopped connection (C5) -/

/-- C5. When the connection is nil or in state `Shutdown`,
`executeRemotePlugin` returns false and leaves the whole transaction state as
it was: sink, live request, plugin process and trace (so no remote call).
`ServeHTTP` then, whatever the order, hands the sink and request to `next`
exactly once and makes no remote call. -/
theorem executeRemotePlugin_stopped {ρ : Type} (L : Lib)
    (h : RemotePluginMiddlewareHandler ρ) (guid : String) (next : Handler) (s : Tx ρ)
    (hconn : h.conn = none ∨ h.conn = some connectivity.State.Shutdown) :
    (∀ before : Bool, executeRemotePlugin L h guid before s = (false, s)) ∧
    (ServeHTTP L h guid next s).rw = (next s.rw s.r).1 ∧
    (ServeHTTP L h guid next s).r = (next s.rw s.r).2 ∧
    (ServeHTTP L h guid next s).plugin = s.plugin ∧
    (newEvents s (ServeHTTP L h guid next s)).countP Event.isNext = 1 ∧
    (newEvents s (ServeHTTP L h guid next s)).countP Event.isRemote = 0 ∧
    newEvents s (ServeHTTP L h guid next s) =
      (if h.plugin.Before = true then [Event.executed true false] else []) ++
      [Event.next] ++
      (if h.plugin.After = true then [Event.executed false false] else []) := by
  have hu : usable h.conn = false := by
    rcases hconn with hc | hc <;> rw [hc] <;> rfl
  have hex : ∀ (before : Bool) (t : Tx ρ), executeRemotePlugin L h guid before t = (false, t) :=
    fun before t => executeRemotePlugin_of_not_usable L h guid before t hu
  have hst : (stageBefore L h guid s).1 = false := by
    rw [stageBefore_result, hex]
    simp
  have hev : newEvents s (ServeHTTP L h guid next s) =
      (if h.plugin.Before = true then [Event.executed true false] else []) ++
      [Event.next] ++
      (if h.plugin.After = true then [Event.executed false false] else []) := by
    rw [ServeHTTP_newEvents]
    simp only [hst, hex, remoteCall, hu, Bool.false_eq_true, if_false, if_true,
      List.nil_append]
  have hstate : (stageNext next (stageBefore L h guid s)).rw = (next s.rw s.r).1 ∧
      (stageNext next (stageBefore L h guid s)).r = (next s.rw s.r).2 ∧
      (stageNext next (stageBefore L h guid s)).plugin = s.plugin := by
    unfold stageNext stageBefore
    by_cases hb : h.plugin.Before = true
    · simp [hb, hex]
    · simp [hb]
  have hserve : (ServeHTTP L h guid next s).rw = (next s.rw s.r).1 ∧
      (ServeHTTP L h guid next s).r = (next s.rw s.r).2 ∧
      (ServeHTTP L h guid next s).plugin = s.plugin := by
    unfold ServeHTTP
    by_cases ha : h.plugin.After = true
    · simp only [ha, if_true, hex]
      exact hstate
    · simp only [ha, Bool.false_eq_true, if_false]
      exact hstate
  refine ⟨fun before => hex before s, hserve.1, hserve.2.1, hserve.2.2, ?_, ?_, hev⟩
  · rw [hev]
    by_cases hb : h.plugin.Before = true <;> by_cases ha : h.plugin.After = true <;>
      simp [hb, ha, Event.isNext]
  · rw [hev]
    by_cases hb : h.plugin.Before = true <;> by_cases ha : h.plugin.After = true <;>
      simp [hb, ha, Event.isRemote]

/-- C5 at an `around` adapter that was ready and has been stopped. -/
theorem executeRemotePlugin_stopped_witness :
    ((RemotePluginMiddlewareHandler.Stop
        ⟨some connectivity.State.Ready, echoRemote, samplePlugin "grpc" "around"⟩).conn = none ∨
      (RemotePluginMiddlewareHandler.Stop
        ⟨some connectivity.State.Ready, echoRemote, samplePlugin "grpc" "around"⟩).conn =
        some connectivity.State.Shutdown) ∧
    executeRemotePlugin sampleLib
      (RemotePluginMiddlewareHandler.Stop
        ⟨some connectivity.State.Ready, echoRemote, samplePlugin "grpc" "around"⟩)
      "id" true sampleTx = (false, sampleTx) ∧
    (ServeHTTP sampleLib
      (RemotePluginMiddlewareHandler.Stop
        ⟨some connectivity.State.Ready, echoRemote, samplePlugin "grpc" "around"⟩)
      "id" sampleNext sampleTx).rw.calls = [http.SinkCall.WriteHeader 204] :=
  have w := executeRemotePlugin_stopped sampleLib
    (RemotePluginMiddlewareHandler.Stop
      ⟨some connectivity.State.Ready, echoRemote, samplePlugin "grpc" "around"⟩)
    "id" sampleNext sampleTx (Or.inr rfl)
  ⟨Or.inr rfl, w.1 true, by rw [w.2.1]; rfl⟩

/-! ## Around declarations (C2) -/

/-- C2, as stated, fails: an `around` declaration whose connection is in state
`Shutdown` serves a transaction with no remote call at all; the only events
are the two skipped calls around `next`. -/
theorem around_stopped_makes_no_remote_call :
    (samplePlugin "grpc" "around").Order = PluginAround ∧
    remoteUuids (newEvents sampleTx
      (ServeHTTP sampleLib
        ⟨some connectivity.State.Shutdown, echoRemote, samplePlugin "grpc" "around"⟩
        "id" sampleNext sampleTx)) = [] ∧
    (newEvents sampleTx
      (ServeHTTP sampleLib
        ⟨some connectivity.State.Shutdown, echoRemote, samplePlugin "grpc" "around"⟩
        "id" sampleNext sampleTx)).countP Event.isRemote = 0 := by
  refine ⟨rfl, rfl, rfl⟩

/-- C2, amended. For an `around` declaration whose connection is usable
(non-nil and not `Shutdown`), a transaction makes exactly two remote calls,
both carrying the transaction's correlation id, and `next` is invoked between
them if and only if the first `executeRemotePlugin` returned false. -/
theorem ServeHTTP_around_two_calls {ρ : Type} (L : Lib)
    (h : RemotePluginMiddlewareHandler ρ) (guid : String) (next : Handler) (s : Tx ρ)
    (horder : h.plugin.Order = PluginAround)
    (state : connectivity.State) (hconn : h.conn = some state)
    (hstate : state ≠ connectivity.State.Shutdown) :
    ∃ (q2 : proto.Request) (b2 : Bool),
      q2.RequestUuid = guid ∧
      (createPluginRequest L s.r guid).1.RequestUuid = guid ∧
      newEvents s (ServeHTTP L h guid next s) =
        [Event.remote (createPluginRequest L s.r guid).1,
         Event.executed true (executeRemotePlugin L h guid true s).1] ++
        (if (executeRemotePlugin L h guid true s).1 = false then [Event.next] else []) ++
        [Event.remote q2, Event.executed false b2] ∧
      remoteUuids (newEvents s (ServeHTTP L h guid next s)) = [guid, guid] ∧
      (newEvents s (ServeHTTP L h guid next s)).countP Event.isRemote = 2 := by
  have hb : h.plugin.Before = true := by
    simp [Plugin.Before, horder]
  have ha : h.plugin.After = true := by
    simp [Plugin.After, horder]
  have hu : usable h.conn = true := by
    rw [hconn]
    simpa [usable] using hstate
  have hst : (stageBefore L h guid s).1 = (executeRemotePlugin L h guid true s).1 := by
    rw [stageBefore_result, hb]
    simp
  have hev : newEvents s (ServeHTTP L h guid next s) =
      [Event.remote (createPluginRequest L s.r guid).1,
        Event.executed true (executeRemotePlugin L h guid true s).1] ++
      (if (executeRemotePlugin L h guid true s).1 = false then [Event.next] else []) ++
      [Event.remote
        (createPluginRequest L (stageNext next (stageBefore L h guid s)).r guid).1,
        Event.executed false
          (executeRemotePlugin L h guid false
            (stageNext next (stageBefore L h guid s))).1] := by
    rw [ServeHTTP_newEvents]
    simp only [hb, ha, hst, remoteCall, hu, if_true, List.singleton_append]
  refine ⟨_, _, ?_, rfl, hev, ?_, ?_⟩
  · rfl
  · rw [hev]
    by_cases hr : (executeRemotePlugin L h guid true s).1 = false
    · simp [hr, remoteUuids, createPluginRequest_uuid]
    · simp [hr, remoteUuids, createPluginRequest_uuid]
  · rw [hev]
    by_cases hr : (executeRemotePlugin L h guid true s).1 = false
    · simp [hr, Event.isRemote]
    · simp [hr, Event.isRemote]

/-- C2, amended, at an `around` declaration on a ready connection to the
echoing plugin: two remote calls with the id `id`. -/
theorem ServeHTTP_around_two_calls_witness :
    (samplePlugin "grpc" "around").Order = PluginAround ∧
    connectivity.State.Ready ≠ connectivity.State.Shutdown ∧
    remoteUuids (newEvents sampleTx
      (ServeHTTP sampleLib
        ⟨some connectivity.State.Ready, echoRemote, samplePlugin "grpc" "around"⟩
        "id" sampleNext sampleTx)) = ["id", "id"] :=
  ⟨rfl, by decide, by
    obtain ⟨q2, b2, _, _, _, huu, _⟩ := ServeHTTP_around_two_calls sampleLib
      ⟨some connectivity.State.Ready, echoRemote, samplePlugin "grpc" "around"⟩
      "id" sampleNext sampleTx rfl connectivity.State.Ready rfl (by decide)
    exact huu⟩

/-! ## Round trip through the wire model (C7) -/

theorem lookup_mapOfStrings_valueList (m : Values) (k : String) :
    (mapOfStrings (valueList m)).lookup k = m.lookup k := by
  rw [lookup_mapOfStrings, lookup_valueList]
  cases m.lookup k <;> rfl

theorem perm_mapOfStrings_valueList (m : Values) :
    (mapOfStrings (valueList m)).entries.Perm m.entries :=
  List.lookup_ext (mapOfStrings (valueList m)).nodupKeys m.nodupKeys
    (fun x y => by
      have h := lookup_mapOfStrings_valueList m x
      unfold AList.lookup at h
      rw [h])

theorem bodyBytes_echoRoundTrip (L : Lib) (r : http.Request) (guid : String) :
    bodyBytes (echoRoundTrip L r guid) =
      match getBody r with
      | some bodyReader => bodyReader.data
      | none => [] := by
  unfold echoRoundTrip syncRequest bodyBytes createPluginRequest ReadAll
  cases getBody r <;> rfl

/-- What `echoRoundTrip` leaves as URL: the URL the library parses from the
printed URL, or the original when that does not parse. -/
theorem URL_echoRoundTrip (L : Lib) (r : http.Request) (guid : String) :
    (echoRoundTrip L r guid).URL =
      match L.parseRequestURI (L.urlString r.URL) with
      | some url => url
      | none => r.URL := by
  have hu : (echoRoundTrip L r guid).URL =
      match L.parseRequestURI (L.urlString r.URL) with
      | some url => url
      | none => (afterBodyRead r).URL := rfl
  have hf : (afterBodyRead r).URL = r.URL := by
    have hfields := congrArg http.Request.URL (afterBodyRead_fields r)
    exact hfields
  rw [hu, hf]

/-- C7, as stated, fails, for the body and for the URL.  On a request whose
`GetBody` function returns an error the wire request carries an empty body,
and applying it back replaces the two body bytes of the live request by none.
On a request whose URL has path `/x` and fragment `f` the wire request carries
`/x#f`, which parses as a request URI to the path `/x#f` without fragment, and
applying it back replaces the live URL by that one. -/
theorem echoRoundTrip_loses_body_and_url :
    bodyBytes unreadableRequest = [104, 105] ∧
    bodyBytes (echoRoundTrip sampleLib unreadableRequest "id") = [] ∧
    fragmentRequest.URL = { pathURL "/x" with Fragment := "f" } ∧
    (createPluginRequest fragmentLib fragmentRequest "id").1.Request.Url = "/x#f" ∧
    (echoRoundTrip fragmentLib fragmentRequest "id").URL =
      { pathURL "/x#f" with RawPath := "/x#f" } ∧
    (echoRoundTrip fragmentLib fragmentRequest "id").URL.Path = "/x#f" ∧
    (echoRoundTrip fragmentLib fragmentRequest "id").URL.Fragment = "" := by
  refine ⟨rfl, rfl, rfl, rfl, rfl, rfl, rfl⟩

/-- C7, amended. For every request whose `GetBody` is nil or returns a reader
over the same bytes as `Body`, building the wire request and applying it back
unchanged reproduces the method, the headers (every key with its values in
order) and the body bytes.  The URL it leaves is the one `ParseRequestURI`
returns on the printed URL, or the original when that does not parse; so the
URL is reproduced exactly when that call returns the original URL or fails.
For every multimap `m`, `mapOfStrings (valueList m)` binds every key exactly as
`m` does, so it is `m` up to the order of entries. -/
theorem echoRoundTrip_reproduces (L : Lib) (r : http.Request) (guid : String)
    (hbody : ∀ g, r.GetBody = some g → ∃ rd, g = some rd ∧ rd.data = bodyBytes r) :
    (echoRoundTrip L r guid).Method = r.Method ∧
    ((echoRoundTrip L r guid).URL =
      match L.parseRequestURI (L.urlString r.URL) with
      | some url => url
      | none => r.URL) ∧
    ((echoRoundTrip L r guid).URL = r.URL ↔
      (L.parseRequestURI (L.urlString r.URL) = some r.URL ∨
        L.parseRequestURI (L.urlString r.URL) = none)) ∧
    (∀ k, (echoRoundTrip L r guid).Header.lookup k = r.Header.lookup k) ∧
    (echoRoundTrip L r guid).Header.entries.Perm r.Header.entries ∧
    bodyBytes (echoRoundTrip L r guid) = bodyBytes r ∧
    (∀ m : Values,
      (∀ k, (mapOfStrings (valueList m)).lookup k = m.lookup k) ∧
      (mapOfStrings (valueList m)).entries.Perm m.entries) := by
  refine ⟨rfl, URL_echoRoundTrip L r guid, ?_, ?_, ?_, ?_, ?_⟩
  · rw [URL_echoRoundTrip]
    cases hp : L.parseRequestURI (L.urlString r.URL) with
    | some url =>
      constructor
      · intro hu
        left
        exact congrArg some hu
      · rintro (hh | hh)
        · exact Option.some.inj hh
        · cases hh
    | none =>
      constructor
      · intro _
        right
        rfl
      · intro _
        rfl
  · intro k
    exact lookup_mapOfStrings_valueList r.Header k
  · exact perm_mapOfStrings_valueList r.Header
  · rw [bodyBytes_echoRoundTrip]
    unfold getBody
    cases hg : r.GetBody with
    | some g =>
      obtain ⟨rd, hrd, hdata⟩ := hbody g hg
      simp only [hrd]
      exact hdata
    | none =>
      unfold bodyBytes
      cases r.Body <;> rfl
  · intro m
    exact ⟨lookup_mapOfStrings_valueList m, perm_mapOfStrings_valueList m⟩

/-- C7, amended, at the sample request, whose `GetBody` is nil: the two body
bytes and the header are reproduced, and the URL `/x`, which the stand-in
library parses back to itself, is reproduced too. -/
theorem echoRoundTrip_reproduces_witness :
    (∀ g, sampleRequest.GetBody = some g →
      ∃ rd, g = some rd ∧ rd.data = bodyBytes sampleRequest) ∧
    bodyBytes (echoRoundTrip sampleLib sampleRequest "id") = [104, 105] ∧
    (echoRoundTrip sampleLib sampleRequest "id").Header.lookup "Accept" = some ["a", "b"] ∧
    (echoRoundTrip sampleLib sampleRequest "id").URL = pathURL "/x" :=
  have hb : ∀ g, sampleRequest.GetBody = some g →
      ∃ rd, g = some rd ∧ rd.data = bodyBytes sampleRequest :=
    fun _ hg => nomatch hg
  have w := echoRoundTrip_reproduces sampleLib sampleRequest "id" hb
  ⟨hb, w.2.2.2.2.2.1, (w.2.2.2.1 "Accept").trans rfl, w.2.2.1.mpr (Or.inl rfl)⟩

/-! ## The registry (C8, C9) -/

/-- C8. A declaration whose kind is neither `go` nor `grpc` makes `Load`
return the `unknown plugin type` error and leaves the registry as it was. -/
theorem Manager.Load_unknown_kind {ρ : Type} (E : Loaders ρ) (m : Manager ρ) (plugin : Plugin)
    (hgo : plugin.Kind ≠ "go") (hgrpc : plugin.Kind ≠ "grpc") :
    Manager.Load E m plugin = some (some (LoadError.unknownPluginType plugin.Kind), m) := by
  unfold Manager.Load instantiate
  simp [PluginGo, PluginGrpc, hgo, hgrpc]

/-- C8 at the kinds `unknown` and `netrpc`. -/
theorem Manager.Load_unknown_kind_witness :
    (samplePlugin "unknown" "before").Kind ≠ "go" ∧
    (samplePlugin "unknown" "before").Kind ≠ "grpc" ∧
    Manager.Load sampleLoaders NewManager (samplePlugin "unknown" "before") =
      some (some (LoadError.unknownPluginType "unknown"), NewManager) ∧
    Manager.Load sampleLoaders NewManager (samplePlugin PluginNetRPC "before") =
      some (some (LoadError.unknownPluginType "netrpc"), NewManager) :=
  ⟨by decide, by decide,
    Manager.Load_unknown_kind sampleLoaders NewManager (samplePlugin "unknown" "before")
      (by decide) (by decide),
    Manager.Load_unknown_kind sampleLoaders NewManager (samplePlugin PluginNetRPC "before")
      (by decide) (by decide)⟩

theorem NewRemotePluginMiddleware_plugin {ρ : Type} (E : Loaders ρ) (p : Plugin)
    (h : RemotePluginMiddlewareHandler ρ) (hok : NewRemotePluginMiddleware E p = Except.ok h) :
    h.plugin = p := by
  unfold NewRemotePluginMiddleware at hok
  split at hok
  · cases hok
  · split at hok
    · cases hok
    · split at hok
      · cases hok
        rfl
      · cases hok

theorem lookup_register {ρ : Type} (m : Manager ρ) (mw : Middleware ρ) (k : String) :
    (m.register mw).middlewares.lookup k =
      if k = mw.Name then some ((m.middlewares.lookup k).getD [] ++ [mw])
      else m.middlewares.lookup k := by
  unfold Manager.register
  by_cases hk : k = mw.Name
  · subst hk
    cases hl : m.middlewares.lookup mw.Name with
    | some list => simp [AList.lookup_insert]
    | none => simp [AList.lookup_insert]
  · cases hl : m.middlewares.lookup mw.Name with
    | some list => simp [hk, AList.lookup_insert_ne hk]
    | none => simp [hk, AList.lookup_insert_ne hk]

theorem GetMiddlewares_register {ρ : Type} (m : Manager ρ) (mw : Middleware ρ) (k : String) :
    Manager.GetMiddlewares (some (m.register mw)) k =
      Manager.GetMiddlewares (some m) k ++ (if mw.Name = k then [mw] else []) := by
  unfold Manager.GetMiddlewares
  simp only [lookup_register]
  by_cases hk : k = mw.Name
  · subst hk
    simp
  · have hk2 : ¬ mw.Name = k := fun hh => hk hh.symm
    simp [hk, hk2]

theorem GetMiddlewares_foldl_register {ρ : Type} (mws : List (Middleware ρ)) :
    ∀ (m : Manager ρ) (k : String),
      Manager.GetMiddlewares (some (mws.foldl Manager.register m)) k =
        Manager.GetMiddlewares (some m) k ++ mws.filter (fun x => decide (x.Name = k)) := by
  induction mws with
  | nil => intro m k; simp
  | cons mw rest ih =>
    intro m k
    rw [List.foldl_cons, ih, GetMiddlewares_register, List.append_assoc]
    by_cases hk : mw.Name = k
    · simp [hk, List.filter_cons]
    · simp [hk, List.filter_cons]

/-- C9, as stated, fails: a Go plugin declared for entry point `web` whose
object answers `Name()` with `other` loads without error, the list for `web`
stays empty and the object is filed under `other`. -/
theorem Load_files_under_the_middleware_name :
    goDeclaration.EntryName = "web" ∧
    (Manager.Load sampleLoaders NewManager goDeclaration).map
        (fun res =>
          (res.1, Manager.GetMiddlewares (some res.2) "web",
            Manager.GetMiddlewares (some res.2) "other")) =
      some (none, [], [Middleware.goPlugin "other" 7]) := by
  refine ⟨rfl, rfl⟩

/-- C9, amended. When the instantiation of a declaration yields a middleware,
`Load` returns no error, and afterwards the registry's list under that
middleware's `Name()` is the previous list (empty if absent) with the
middleware appended last, while every other name is bound as before.  For a
`grpc` declaration `Name()` is the declaration's entry name.  Hence after any
sequence of registrations `GetMiddlewares` gives, for each name, the earlier
list followed by the middlewares of that name in load order. -/
theorem Manager.Load_registers {ρ : Type} (E : Loaders ρ) (m : Manager ρ) (plugin : Plugin)
    (mw : Middleware ρ)
    (hinst : instantiate E plugin = Loaded.inst (Instance.middleware mw)) :
    Manager.Load E m plugin = some (none, m.register mw) ∧
    Manager.GetMiddlewares (some (m.register mw)) mw.Name =
      Manager.GetMiddlewares (some m) mw.Name ++ [mw] ∧
    (∀ k, k ≠ mw.Name →
      (m.register mw).middlewares.lookup k = m.middlewares.lookup k) ∧
    (plugin.Kind = PluginGrpc → mw.Name = plugin.EntryName) ∧
    (∀ (mws : List (Middleware ρ)) (k : String),
      Manager.GetMiddlewares (some (mws.foldl Manager.register m)) k =
        Manager.GetMiddlewares (some m) k ++ mws.filter (fun x => decide (x.Name = k))) := by
  refine ⟨?_, ?_, ?_, ?_, ?_⟩
  · unfold Manager.Load
    rw [hinst]
  · rw [GetMiddlewares_register]
    simp
  · intro k hk
    rw [lookup_register]
    simp [hk]
  · intro hkind
    unfold instantiate at hinst
    have hne : ¬ plugin.Kind = PluginGo := by
      rw [hkind]
      decide
    rw [if_neg hne, if_pos hkind] at hinst
    unfold loadRemotePlugin at hinst
    cases hnew : NewRemotePluginMiddleware E plugin with
    | error err =>
      rw [hnew] at hinst
      cases hinst
    | ok hdl =>
      rw [hnew] at hinst
      cases hinst
      show hdl.plugin.EntryName = plugin.EntryName
      rw [NewRemotePluginMiddleware_plugin E plugin hdl hnew]
  · intro mws k
    exact GetMiddlewares_foldl_register mws m k

/-- C9, amended, at a `grpc` declaration for entry point `web`: the adapter is
filed under `web`. -/
theorem Manager.Load_registers_witness :
    instantiate sampleLoaders (samplePlugin "grpc" "around") =
      Loaded.inst (Instance.middleware (Middleware.remotePlugin
        ⟨some connectivity.State.Ready, echoRemote, samplePlugin "grpc" "around"⟩)) ∧
    (Manager.GetMiddlewares
      (some ((NewManager : Manager Nat).register (Middleware.remotePlugin
        ⟨some connectivity.State.Ready, echoRemote, samplePlugin "grpc" "around"⟩)))
      "web").map Middleware.Name = ["web"] :=
  have w := Manager.Load_registers sampleLoaders NewManager (samplePlugin "grpc" "around")
    (Middleware.remotePlugin
      ⟨some connectivity.State.Ready, echoRemote, samplePlugin "grpc" "around"⟩) rfl
  ⟨rfl, by
    have h2 := w.2.1
    have hname : (Middleware.remotePlugin
        ⟨some connectivity.State.Ready, echoRemote, samplePlugin "grpc" "around"⟩ :
          Middleware Nat).Name = "web" := rfl
    rw [hname] at h2
    rw [h2]
    rfl⟩

/-! ## Parsing declarations (C10) -/

theorem span_colon (l : List Char) :
    (l.span (fun c => c != ':')).1 ++ (l.span (fun c => c != ':')).2 = l ∧
    ':' ∉ (l.span (fun c => c != ':')).1 ∧
    (∀ c rest, (l.span (fun c => c != ':')).2 = c :: rest → c = ':') ∧
    ((l.span (fun c => c != ':')).2 = [] ↔ ':' ∉ l) := by
  rw [List.span_eq_take_drop]
  refine ⟨List.takeWhile_append_dropWhile _ l, ?_, ?_, ?_⟩
  · intro hmem
    have := List.mem_takeWhile_imp hmem
    simp at this
  · intro c rest hd
    have hd2 : l.dropWhile (fun c => c != ':') = c :: rest := hd
    have hne : l.dropWhile (fun c => c != ':') ≠ [] := by
      rw [hd2]
      exact List.cons_ne_nil c rest
    have hhead := List.head_dropWhile_not (fun c => c != ':') l hne
    have hc : (l.dropWhile (fun c => c != ':')).head hne = c := by
      simp only [hd2, List.head_cons]
    rw [hc] at hhead
    simpa using hhead
  · rw [List.dropWhile_eq_nil_iff]
    constructor
    · intro hall hmem
      have := hall ':' hmem
      simp at this
    · intro hnot c hc
      have hne : c ≠ ':' := fun hh => hnot (hh ▸ hc)
      simpa using hne

/-- `SplitN2` yields two parts exactly on a field with a colon: the text before
the first colon and the text after it. -/
theorem SplitN2_cases (s : String) :
    (':' ∉ s.toList ∧ SplitN2 s = [s]) ∨
    (∃ key value : String, SplitN2 s = [key, value] ∧
      s.toList = key.toList ++ ':' :: value.toList ∧ ':' ∉ key.toList) := by
  obtain ⟨happ, hnot, hhead, hnil⟩ := span_colon s.toList
  unfold SplitN2
  cases hsp : s.toList.span (fun c => c != ':') with
  | mk a b =>
    rw [hsp] at happ hnot hhead hnil
    cases b with
    | nil =>
      left
      refine ⟨hnil.mp rfl, ?_⟩
      simp only at happ
      rw [List.append_nil] at happ
      simp only [happ]
      rfl
    | cons c rest =>
      right
      have hc : c = ':' := hhead c rest rfl
      subst hc
      refine ⟨String.mk a, String.mk rest, rfl, ?_, hnot⟩
      exact happ.symm

theorem mem_toList_of_split {s key value : String}
    (h : s.toList = key.toList ++ ':' :: value.toList) : ':' ∈ s.toList := by
  rw [h]
  simp

theorem setAttribute_describes (lower : String → String) (field key value : String)
    (hf : field.toList = key.toList ++ ':' :: value.toList) (hk : ':' ∉ key.toList) :
    fieldDescribes lower field (setAttribute lower key value) := by
  refine ⟨key, value, hf, hk, ?_⟩
  unfold setAttribute
  by_cases h1 : lower key = "name"
  · simp [h1, Plugin.zero]
  · by_cases h2 : lower key = "path"
    · simp [h2, Plugin.zero]
    · by_cases h3 : lower key = "type"
      · simp [h3, Plugin.zero]
      · by_cases h4 : lower key = "order"
        · simp [h4, Plugin.zero]
        · by_cases h5 : lower key = "timeout"
          · cases hp : ParseInt value <;> simp [h5, hp, Plugin.zero]
          · simp [h1, h2, h3, h4, h5, Plugin.zero]

/-- The loop of `Plugins.Set`: it fails exactly when some field has no colon,
and otherwise appends one described plugin per field, in order. -/
theorem setLoop_spec (lower : String → String) :
    ∀ (fields : List String) (p : Plugins),
      ((setLoop lower fields p).1.isSome = true ↔ ∃ f ∈ fields, ':' ∉ f.toList) ∧
      ((setLoop lower fields p).1 = none →
        ∃ added : List Plugin,
          (setLoop lower fields p).2 = p ++ added ∧
          List.Forall₂ (fieldDescribes lower) fields added) := by
  intro fields
  induction fields with
  | nil =>
    intro p
    refine ⟨by simp [setLoop], fun _ => ⟨[], by simp [setLoop], List.Forall₂.nil⟩⟩
  | cons exp rest ih =>
    intro p
    rcases SplitN2_cases exp with ⟨hno, hsplit⟩ | ⟨key, value, hsplit, hf, hk⟩
    · have hloop : setLoop lower (exp :: rest) p =
          (some (SetError.badDefinitionFormat exp), p) := by
        simp only [setLoop, hsplit]
      rw [hloop]
      refine ⟨?_, ?_⟩
      · simp only [Option.isSome_some, true_iff]
        exact ⟨exp, List.mem_cons_self _ _, hno⟩
      · intro hnone
        cases hnone
    · have hloop : setLoop lower (exp :: rest) p =
          setLoop lower rest (p ++ [setAttribute lower key value]) := by
        simp only [setLoop, hsplit]
      rw [hloop]
      obtain ⟨ih1, ih2⟩ := ih (p ++ [setAttribute lower key value])
      refine ⟨?_, ?_⟩
      · rw [ih1]
        constructor
        · rintro ⟨f, hmem, hno⟩
          exact ⟨f, List.mem_cons_of_mem _ hmem, hno⟩
        · rintro ⟨f, hmem, hno⟩
          rcases List.mem_cons.mp hmem with heq | hmem
          · subst heq
            exact absurd (mem_toList_of_split hf) hno
          · exact ⟨f, hmem, hno⟩
      · intro hnone
        obtain ⟨added, hadd, hall⟩ := ih2 hnone
        refine ⟨setAttribute lower key value :: added, ?_, ?_⟩
        · rw [hadd, List.append_assoc]
          rfl
        · exact List.Forall₂.cons (setAttribute_describes lower exp key value hf hk) hall

/-- C10. `Plugins.Set` returns an error iff the string has no
whitespace-separated field or some field has no colon.  When it returns no
error it appends to the receiver exactly one plugin per field, in field order,
and each plugin has the attribute named by the lower-cased text before the
field's first colon (`name`, `path`, `type`, `order`, `timeout`) set from the
text after it, and every other attribute at its zero value. -/
theorem Plugins.Set_spec (lower : String → String) (p : Plugins) (str : String) :
    ((Plugins.Set lower p str).1.isSome = true ↔
      (Fields str = [] ∨ ∃ f ∈ Fields str, ':' ∉ f.toList)) ∧
    ((Plugins.Set lower p str).1 = none →
      ∃ added : List Plugin,
        (Plugins.Set lower p str).2 = p ++ added ∧
        added.length = (Fields str).length ∧
        List.Forall₂ (fieldDescribes lower) (Fields str) added) := by
  obtain ⟨h1, h2⟩ := setLoop_spec lower (Fields str) p
  unfold Plugins.Set
  by_cases hlen : (Fields str).length = 0
  · have hnil : Fields str = [] := List.length_eq_zero.mp hlen
    simp only [hlen, if_true]
    refine ⟨?_, ?_⟩
    · simp [hnil]
    · intro hnone
      cases hnone
  · have hne : Fields str ≠ [] := fun hh => hlen (by rw [hh]; rfl)
    simp only [hlen, if_false]
    refine ⟨?_, ?_⟩
    · rw [h1]
      constructor
      · intro hh
        exact Or.inr hh
      · rintro (hh | hh)
        · exact absurd hh hne
        · exact hh
    · intro hnone
      obtain ⟨added, hadd, hall⟩ := h2 hnone
      exact ⟨added, hadd, hall.length_eq.symm, hall⟩

/-- C10 at `name:web TIMEOUT:5`: no error, and two plugins appended, the first
with only the entry name set, the second with only the timeout. -/
theorem Plugins.Set_spec_witness :
    (Plugins.Set asciiLower [] "name:web TIMEOUT:5").1 = none ∧
    (∃ added : List Plugin,
      (Plugins.Set asciiLower [] "name:web TIMEOUT:5").2 = [] ++ added ∧
      added.length = (Fields "name:web TIMEOUT:5").length ∧
      List.Forall₂ (fieldDescribes asciiLower) (Fields "name:web TIMEOUT:5") added) ∧
    (Plugins.Set asciiLower [] "name:web TIMEOUT:5").2 =
      [{ EntryName := "web", Path := "", Kind := "", Order := "", Timeout := 0 },
       { EntryName := "", Path := "", Kind := "", Order := "", Timeout := 5 }] :=
  ⟨rfl, (Plugins.Set_spec asciiLower [] "name:web TIMEOUT:5").2 rfl, rfl⟩

end Traefik
